import Mathlib

/-!
Verification development for the juju time-tracker core
(session store, project store, tracker state machine, comparison engine).

The definitions below are shallow embeddings of the JavaScript source:

* `src/tray.js` — tracker state machine (`startSession`, `endSession`);
* `src/src/main/data-manager.js` — session store (`loadSessionsFromCSV`,
  `updateSessionInCSV`, `deleteSession`), project store
  (`loadAndMigrateProjects`, `addProject`);
* `src/unnamed/part_009` (ipc-handlers) — comparison engine
  (`calculateTotalHours`, day comparison of `get-comparison-stats`).

Modelling conventions:

* Machine-level JavaScript numbers are modelled as `Int` (all values in
  play are small integers); `Math.round` is round-half-up (`Int.fdiv (x*2 + d) (2*d)`
  style), spelled out where used.
* File system effects are made explicit: load functions take the file's
  (parsed) content as input, `none`/`missing` standing for ENOENT, and
  mutating operations return the content that would be written on success.
  An `Except.error` result models a thrown exception, after which no write
  to the file occurs (the `writeFile` call is only reached on the success
  path in the source).
* External library behaviour (PapaParse CSV parsing, `JSON.parse`) is not
  re-implemented: the repository's own code receives the parse result, so
  the embeddings take the parsed rows / parsed JSON value as input.
-/

/-! ## Tracker state machine (`src/tray.js`, first revision in file)

Module-level mutable state of `tray.js`:
`isSessionActive`, `currentProjectName`, `sessionStartTime`, `timerIntervalId`.
Timestamps (`new Date()`) are milliseconds since epoch, modelled as `Int`.
The repeating UI timer is abstracted to the `timerActive` flag.
-/

structure Tracker where
  isSessionActive : Bool
  currentProjectName : Option String
  sessionStartTime : Option Int
  timerActive : Bool
deriving Repr, DecidableEq

/-- Initial module state of `tray.js`: idle, nothing recorded. -/
def initialTracker : Tracker :=
  { isSessionActive := false
    currentProjectName := none
    sessionStartTime := none
    timerActive := false }

/-- `startSession(projectName)` from `src/tray.js`.
Guard: `if (isSessionActive || !projectName) return;` — an empty project
name is the falsy case for a string argument.  Otherwise the three state
fields are set and the menu-refresh interval is (re)started. -/
def startSession (st : Tracker) (projectName : String) (now : Int) : Tracker :=
  if st.isSessionActive || projectName == "" then st
  else
    { isSessionActive := true
      currentProjectName := some projectName
      sessionStartTime := some now
      timerActive := true }

/-- The completed-session draft `endSession` hands to
`mainProcessApi.saveSession` (ISO-string formatting of the two timestamps
is serialization; we keep the numeric values). -/
structure SessionDraft where
  startTime : Option Int
  endTime : Int
  durationMinutes : Int
  projectName : Option String
  notes : String
deriving Repr, DecidableEq

/-- Result of one `endSession` call: the new module state, the draft given
to the session store's append (`none` when no append was attempted), and
the persistence error that was caught and logged (`none` when the save
succeeded or was not attempted). -/
structure StopResult where
  state : Tracker
  appended : Option SessionDraft
  savedError : Option String
deriving Repr, DecidableEq

/-- JS `Math.round(x)` for `x = num/den` with `den > 0`: round half toward
positive infinity, i.e. `⌊x + 1/2⌋`. -/
def jsRoundDiv (num den : Int) : Int :=
  Int.fdiv (2 * num + den) (2 * den)

/-- `endSession(notes)` from `src/tray.js`.
If idle, returns at once (no append, no error).  Otherwise it clears the
interval, builds the session draft with
`durationMinutes = Math.round(durationMs / 60000)`, resets the tracker
state to idle *before* the asynchronous `saveSession` call, and only
logs a failure of that call (`saveOutcome` is the outcome of the
downstream append; it does not influence the state). -/
def endSession (st : Tracker) (notes : Option String) (now : Int)
    (saveOutcome : Except String Unit) : StopResult :=
  if !st.isSessionActive then
    { state := st, appended := none, savedError := none }
  else
    let durationMs := now - (st.sessionStartTime.getD 0)
    let draft : SessionDraft :=
      { startTime := st.sessionStartTime
        endTime := now
        durationMinutes := jsRoundDiv durationMs 60000
        projectName := st.currentProjectName
        notes := notes.getD "" }
    let idleState : Tracker :=
      { isSessionActive := false
        currentProjectName := none
        sessionStartTime := none
        timerActive := false }
    { state := idleState
      appended := some draft
      savedError := match saveOutcome with
        | .ok _ => none
        | .error e => some e }

/-- One externally triggered tracker operation, with the inputs the
environment supplies at that moment (current time, notes, outcome of the
downstream append). -/
inductive TrackerOp where
  | start (projectName : String) (now : Int)
  | stop (notes : Option String) (now : Int) (saveOutcome : Except String Unit)

/-- Apply one operation to the tracker state. -/
def applyOp (st : Tracker) : TrackerOp → Tracker
  | .start p now => startSession st p now
  | .stop notes now saveOutcome => (endSession st notes now saveOutcome).state

/-- Run a sequence of start/stop operations from a given state. -/
def runOps (st : Tracker) (ops : List TrackerOp) : Tracker :=
  ops.foldl applyOp st

/-- The tracking-state invariant of §3 of the specification:
project name and start time are both present iff the tracker is active. -/
def trackerInv (st : Tracker) : Prop :=
  (st.currentProjectName ≠ none ∧ st.sessionStartTime ≠ none) ↔ st.isSessionActive = true

lemma trackerInv_applyOp (st : Tracker) (op : TrackerOp) (h : trackerInv st) :
    trackerInv (applyOp st op) := by
  cases op with
  | start p now =>
    simp only [applyOp, startSession]
    by_cases hb : st.isSessionActive || p == ""
    · simpa [hb] using h
    · simp [hb, trackerInv]
  | stop notes now saveOutcome =>
    simp only [applyOp, endSession]
    by_cases hb : st.isSessionActive
    · simp [hb, trackerInv]
    · simpa [hb] using h

lemma trackerInv_runOps (ops : List TrackerOp) :
    ∀ st : Tracker, trackerInv st → trackerInv (runOps st ops) := by
  induction ops with
  | nil => intro st h; simpa [runOps] using h
  | cons op rest ih =>
    intro st h
    simpa [runOps] using ih (applyOp st op) (trackerInv_applyOp st op h)

/-- C8: in every state reachable from the initial idle state by any
sequence of `start`/`stop` operations, `currentProjectName` and
`sessionStartTime` are both present iff `isSessionActive` is true. -/
theorem tracker_invariant_reachable (ops : List TrackerOp) :
    trackerInv (runOps initialTracker ops) :=
  trackerInv_runOps ops initialTracker (by simp [trackerInv, initialTracker])

/-- C7: starting while already active leaves the whole tracker state
(startTime in particular) unchanged, and stopping while idle performs no
append and reports no error. -/
theorem tracker_noop_transitions (st : Tracker) (p : String) (now now' : Int)
    (notes : Option String) (saveOutcome : Except String Unit) :
    (st.isSessionActive = true → startSession st p now = st) ∧
    (st.isSessionActive = false →
      endSession st notes now' saveOutcome =
        { state := st, appended := none, savedError := none }) := by
  constructor
  · intro h
    simp [startSession, h]
  · intro h
    simp [endSession, h]

/-- Witness for C7 at a concrete active state and a concrete idle state. -/
theorem tracker_noop_transitions_witness :
    (startSession ⟨true, some "Writing", some 1000, true⟩ "Other" 2000 =
      ⟨true, some "Writing", some 1000, true⟩) ∧
    (endSession initialTracker (some "n") 5000 (.ok ()) =
      { state := initialTracker, appended := none, savedError := none }) :=
  ⟨(tracker_noop_transitions ⟨true, some "Writing", some 1000, true⟩
      "Other" 2000 5000 (some "n") (.ok ())).1 rfl,
   (tracker_noop_transitions initialTracker "Other" 2000 5000
      (some "n") (.ok ())).2 rfl⟩

/-- C2: stopping an active tracker always transitions the state to idle
(active flag cleared, project name and start time cleared), whatever the
outcome of the downstream session-store append; the append is attempted,
and a failing append is reported (logged) rather than rolling back the
transition. -/
theorem stop_transitions_to_idle_despite_save_failure (st : Tracker)
    (notes : Option String) (now : Int) (saveOutcome : Except String Unit)
    (h : st.isSessionActive = true) :
    (endSession st notes now saveOutcome).state.isSessionActive = false ∧
    (endSession st notes now saveOutcome).state.currentProjectName = none ∧
    (endSession st notes now saveOutcome).state.sessionStartTime = none ∧
    (endSession st notes now saveOutcome).appended.isSome = true ∧
    (∀ e, saveOutcome = .error e →
      (endSession st notes now saveOutcome).savedError = some e) := by
  refine ⟨by simp [endSession, h], by simp [endSession, h],
    by simp [endSession, h], by simp [endSession, h], ?_⟩
  intro e he
  simp [endSession, h, he]

/-- Witness for C2: a concrete active state stopped while the append
fails with "disk full" still ends idle, and the failure is reported. -/
theorem stop_transitions_to_idle_despite_save_failure_witness :
    (endSession ⟨true, some "Writing", some 1000, true⟩ (some "draft") 61000
        (.error "disk full")).state.isSessionActive = false ∧
    (endSession ⟨true, some "Writing", some 1000, true⟩ (some "draft") 61000
        (.error "disk full")).state.currentProjectName = none ∧
    (endSession ⟨true, some "Writing", some 1000, true⟩ (some "draft") 61000
        (.error "disk full")).state.sessionStartTime = none ∧
    (endSession ⟨true, some "Writing", some 1000, true⟩ (some "draft") 61000
        (.error "disk full")).appended.isSome = true ∧
    (endSession ⟨true, some "Writing", some 1000, true⟩ (some "draft") 61000
        (.error "disk full")).savedError = some "disk full" := by
  have h := stop_transitions_to_idle_despite_save_failure
    ⟨true, some "Writing", some 1000, true⟩ (some "draft") 61000
    (.error "disk full") rfl
  exact ⟨h.1, h.2.1, h.2.2.1, h.2.2.2.1, h.2.2.2.2 "disk full" rfl⟩

/-! ## Session store (`src/src/main/data-manager.js`)

The CSV file is read by the external PapaParse library
(`Papa.parse(csvData, { header: true, skipEmptyLines: true, ... })`);
the repository's own code starts from `parseResult.data`, a list of row
objects keyed by the trimmed header names.  `RawRow` is one such parsed
row: each field is `Option String`, `none` standing for a field the
parser left `undefined` (e.g. a short row).  A missing file (ENOENT) is
the `none` case of the loader's input; other read errors are rethrown by
the source and are outside the mutation paths modelled here. -/

structure RawRow where
  date : Option String
  start_time : Option String
  end_time : Option String
  duration_minutes : Option String
  project : Option String
  notes : Option String
deriving Repr, DecidableEq

/-- A JavaScript value held in the dynamically-typed `duration_minutes`
slot: a number after `loadSessionsFromCSV`'s coercion, a string after an
edit (`session[field] = value`) or after the recomputation
(`durationMinutes.toString()`). -/
inductive JSVal where
  | str (s : String)
  | num (n : Int)
deriving Repr, DecidableEq

/-- An in-memory session as produced by `loadSessionsFromCSV`: the parsed
row plus the internal positional `id`. -/
structure Session where
  id : Nat
  date : Option String
  start_time : Option String
  end_time : Option String
  duration_minutes : JSVal
  project : Option String
  notes : Option String
deriving Repr, DecidableEq

/-- JS `parseInt(s, 10)`: skip leading whitespace, read an optional sign
and the longest digit run; `none` models `NaN` (no digits found). -/
def jsParseInt (s : String) : Option Int :=
  let cs := s.data.dropWhile Char.isWhitespace
  let signAndRest : Int × List Char :=
    match cs with
    | '-' :: rest => (-1, rest)
    | '+' :: rest => (1, rest)
    | _ => (1, cs)
  let ds := signAndRest.2.takeWhile Char.isDigit
  if ds.isEmpty then none
  else some (signAndRest.1 *
    (ds.foldl (fun acc c => acc * 10 + (c.toNat - 48)) (0 : Nat) : Nat))

/-- The loader's coercion
`session.duration_minutes ? parseInt(session.duration_minutes, 10) || 0 : 0`:
a missing or empty (falsy) field gives 0, and a `parseInt` result of
`NaN` (or 0 itself) gives 0 through `|| 0`. -/
def jsDurationCoerce (v : Option String) : Int :=
  match v with
  | none => 0
  | some s => if s = "" then 0 else (jsParseInt s).getD 0

/-- The indexed map of `loadSessionsFromCSV`:
`parseResult.data.map((session, index) => ({...session, id: index, duration_minutes: ...}))`,
with `i` the index of the first row of the remaining list. -/
def loadRows (i : Nat) : List RawRow → List Session
  | [] => []
  | r :: rs =>
    { id := i
      date := r.date
      start_time := r.start_time
      end_time := r.end_time
      duration_minutes := .num (jsDurationCoerce r.duration_minutes)
      project := r.project
      notes := r.notes } :: loadRows (i + 1) rs

/-- `loadSessionsFromCSV` from `data-manager.js`.  Input `none` is the
ENOENT case (`return []`); `some rows` is the PapaParse result. -/
def loadSessionsFromCSV (file : Option (List RawRow)) : List Session :=
  match file with
  | none => []
  | some rows => loadRows 0 rows

lemma loadRows_map_id (rows : List RawRow) :
    ∀ i, (loadRows i rows).map (fun s => s.id) = List.range' i rows.length := by
  induction rows with
  | nil => intro i; simp [loadRows]
  | cons r rs ih =>
    intro i
    simp [loadRows, List.range', ih (i + 1)]

lemma loadRows_map_duration (rows : List RawRow) :
    ∀ i, (loadRows i rows).map (fun s => s.duration_minutes)
      = rows.map (fun r => JSVal.num (jsDurationCoerce r.duration_minutes)) := by
  induction rows with
  | nil => intro i; simp [loadRows]
  | cons r rs ih =>
    intro i
    simp [loadRows, ih (i + 1)]

/-- C3: a missing sessions file loads as the empty list rather than an
error; every parsed row receives `id` equal to its 0-based position among
the parsed rows; and `duration_minutes` is coerced to an integer,
defaulting to 0 when the field is missing, empty, or fails to parse. -/
theorem load_assigns_positional_ids_and_coerces_duration :
    loadSessionsFromCSV none = [] ∧
    ∀ rows : List RawRow,
      (loadSessionsFromCSV (some rows)).map (fun s => s.id)
          = List.range rows.length ∧
      (loadSessionsFromCSV (some rows)).map (fun s => s.duration_minutes)
          = rows.map (fun r => JSVal.num (jsDurationCoerce r.duration_minutes)) := by
  refine ⟨rfl, fun rows => ⟨?_, ?_⟩⟩
  · rw [List.range_eq_range']
    exact loadRows_map_id rows 0
  · exact loadRows_map_duration rows 0

/-- Split a character list at every occurrence of `c`
(`str.split(':')` on the underlying characters). -/
def splitOnChar (c : Char) : List Char → List (List Char)
  | [] => [[]]
  | x :: xs =>
    match splitOnChar c xs with
    | [] => [[]]
    | h :: t => if x = c then [] :: h :: t else (x :: h) :: t

/-- JS `Number(s)` restricted to the integral strings this code meets:
whitespace is trimmed, the empty (or all-whitespace) string converts to 0,
an optional sign followed by digits converts to the signed value, and
anything else is `NaN` (`none`).  Fractional, exponent and radix-prefixed
numerals — which never arise from `HH:MM:SS` fields — are mapped to
`none`. -/
def jsNumberChars (cs : List Char) : Option Int :=
  let t := ((cs.dropWhile Char.isWhitespace).reverse.dropWhile Char.isWhitespace).reverse
  match t with
  | [] => some 0
  | '-' :: rest =>
    if rest ≠ [] ∧ rest.all Char.isDigit then
      some (-(rest.foldl (fun acc c => acc * 10 + (c.toNat - 48)) (0 : Nat) : Nat))
    else none
  | '+' :: rest =>
    if rest ≠ [] ∧ rest.all Char.isDigit then
      some ((rest.foldl (fun acc c => acc * 10 + (c.toNat - 48)) (0 : Nat) : Nat))
    else none
  | _ =>
    if t.all Char.isDigit then
      some ((t.foldl (fun acc c => acc * 10 + (c.toNat - 48)) (0 : Nat) : Nat))
    else none

/-- The time-of-day parsing of `updateSessionInCSV`:
`parts = t.split(':').map(Number)`, then
`d.setHours(parts[0], parts[1], parts[2] || 0, 0)`.
`setHours` is linear in its arguments (no DST modelled), so the resulting
instant is `parts[0]*3600 + parts[1]*60 + (parts[2] || 0)` seconds from
local midnight.  A `NaN` in hours or minutes makes the date invalid
(`none`); `parts[2] || 0` turns both a missing and a `NaN` seconds part
into 0. -/
def parseTimeToSecs (s : String) : Option Int :=
  let parts := splitOnChar ':' s.data
  let p0 := (parts[0]?).bind jsNumberChars
  let p1 := (parts[1]?).bind jsNumberChars
  let p2 : Int := ((parts[2]?).bind jsNumberChars).getD 0
  match p0, p1 with
  | some h, some m => some (h * 3600 + m * 60 + p2)
  | _, _ => none

/-- Duration recomputation:
`if (endDate < startDate) endDate.setDate(endDate.getDate() + 1);`
adds one day (86400 s) when the end time precedes the start time, then
`Math.round(durationMs / (1000 * 60))` rounds the difference to minutes. -/
def durMinutes (ss es : Int) : Int :=
  let esAdjusted := if es < ss then es + 86400 else es
  jsRoundDiv ((esAdjusted - ss) * 1000) 60000

/-- The recomputed `duration_minutes` value,
`durationMinutes.toString()`: `"NaN"` when either time fails to parse (the
invalid-date arithmetic yields `NaN`, which `Math.round` preserves). -/
def computeDur (ts te : String) : JSVal :=
  match parseTimeToSecs ts, parseTimeToSecs te with
  | some ss, some es => .str (toString (durMinutes ss es))
  | _, _ => .str "NaN"

/-- The editable CSV columns.  `session[field] = value` in the source sets
an arbitrary property; the six header columns are the fields this store
reads and writes. -/
inductive CsvField where
  | date
  | start_time
  | end_time
  | duration_minutes
  | project
  | notes
deriving Repr, DecidableEq

/-- `sessions[sessionIndex][field] = value`: the raw assignment of the
string `value` to the chosen column. -/
def setField (s : Session) (f : CsvField) (v : String) : Session :=
  match f with
  | .date => { s with date := some v }
  | .start_time => { s with start_time := some v }
  | .end_time => { s with end_time := some v }
  | .duration_minutes => { s with duration_minutes := .str v }
  | .project => { s with project := some v }
  | .notes => { s with notes := some v }

/-- JS truthiness of an optional string field: present and non-empty. -/
def jsTruthy (o : Option String) : Bool :=
  match o with
  | some s => s ≠ ""
  | none => false

/-- The conditional duration recomputation of `updateSessionInCSV`:
only when the edited field is a time boundary, and only when both
`session.start_time` and `session.end_time` are truthy. -/
def recomputeIfTime (s : Session) (f : CsvField) : Session :=
  if f = .start_time ∨ f = .end_time then
    if jsTruthy s.start_time && jsTruthy s.end_time then
      { s with duration_minutes :=
          computeDur (s.start_time.getD "") (s.end_time.getD "") }
    else s
  else s

/-- `findIndex` followed by an in-place mutation of the found element:
`none` when no element satisfies `p` (the source's `sessionIndex === -1`
branch). -/
def updateFirst (p : α → Bool) (f : α → α) : List α → Option (List α)
  | [] => none
  | x :: xs =>
    if p x then some (f x :: xs)
    else (updateFirst p f xs).map (fun l => x :: l)

/-- `findIndex` followed by `splice(index, 1)`: `none` when absent. -/
def removeFirst (p : α → Bool) : List α → Option (List α)
  | [] => none
  | x :: xs =>
    if p x then some xs
    else (removeFirst p xs).map (fun l => x :: l)

/-- `updateSessionInCSV(id, field, value)` from `data-manager.js`.
`targetId` is the already-parsed numeric id (`parseInt(id, 10)`; the
`isNaN` guard rejects non-numeric input before this point).  The function
reloads the file, mutates the first session whose internal id matches,
recomputes the duration for time-field edits, and rewrites the whole
file; `.ok` carries the in-memory array whose id-stripped rows are the
content written, `.error` models the thrown exception, in which case the
file is not rewritten. -/
def updateSessionInCSV (file : Option (List RawRow)) (targetId : Int)
    (f : CsvField) (v : String) : Except String (List Session) :=
  let sessions := loadSessionsFromCSV file
  match updateFirst (fun s => (s.id : Int) == targetId)
      (fun s => recomputeIfTime (setField s f v) f) sessions with
  | none => .error ("Session with ID " ++ toString targetId ++ " not found")
  | some l => .ok l

/-- `deleteSession(id)` from `data-manager.js`: reloads, removes the
matching session, rewrites the rest.  The internal not-found throw is
caught and rethrown as the fixed message `'Failed to delete session'`;
`.error` again means the file is not rewritten. -/
def deleteSession (file : Option (List RawRow)) (targetId : Int) :
    Except String (List Session) :=
  match removeFirst (fun s => (s.id : Int) == targetId)
      (loadSessionsFromCSV file) with
  | none => .error "Failed to delete session"
  | some l => .ok l

lemma updateFirst_eq_none (p : α → Bool) (f : α → α) (l : List α)
    (h : ∀ x ∈ l, p x = false) : updateFirst p f l = none := by
  induction l with
  | nil => rfl
  | cons x xs ih =>
    simp only [updateFirst, h x (by simp)]
    simp only [Bool.false_eq_true, if_false]
    rw [ih (fun y hy => h y (by simp [hy]))]
    rfl

lemma removeFirst_eq_none (p : α → Bool) (l : List α)
    (h : ∀ x ∈ l, p x = false) : removeFirst p l = none := by
  induction l with
  | nil => rfl
  | cons x xs ih =>
    simp only [removeFirst, h x (by simp)]
    simp only [Bool.false_eq_true, if_false]
    rw [ih (fun y hy => h y (by simp [hy]))]
    rfl

/-- C4: update and delete with an id not present among the loaded
sessions' ids both fail with a thrown error surfaced to the caller (no
silent no-op), and the sessions file is not rewritten (the error result
precedes any write). -/
theorem update_delete_not_found (file : Option (List RawRow)) (targetId : Int)
    (f : CsvField) (v : String)
    (h : ∀ s ∈ loadSessionsFromCSV file, (s.id : Int) ≠ targetId) :
    updateSessionInCSV file targetId f v =
      .error ("Session with ID " ++ toString targetId ++ " not found") ∧
    deleteSession file targetId = .error "Failed to delete session" := by
  have hfalse : ∀ s ∈ loadSessionsFromCSV file, ((s.id : Int) == targetId) = false := by
    intro s hs
    simpa using h s hs
  constructor
  · simp only [updateSessionInCSV]
    rw [updateFirst_eq_none _ _ _ hfalse]
  · simp only [deleteSession]
    rw [removeFirst_eq_none _ _ hfalse]

/-- Witness for C4: a one-row file has only id 0; updating or deleting
id 5 fails with the not-found errors and no write. -/
theorem update_delete_not_found_witness :
    updateSessionInCSV
        (some [⟨some "2024-01-01", some "09:00:00", some "10:00:00",
               some "60", some "Writing", some ""⟩]) 5 .notes "x" =
      .error "Session with ID 5 not found" ∧
    deleteSession
        (some [⟨some "2024-01-01", some "09:00:00", some "10:00:00",
               some "60", some "Writing", some ""⟩]) 5 =
      .error "Failed to delete session" := by
  have h := update_delete_not_found
    (some [⟨some "2024-01-01", some "09:00:00", some "10:00:00",
           some "60", some "Writing", some ""⟩]) 5 .notes "x"
    (by decide)
  exact ⟨h.1, h.2⟩

lemma setField_id (s : Session) (f : CsvField) (v : String) :
    (setField s f v).id = s.id := by
  cases f <;> rfl

lemma recomputeIfTime_id (s : Session) (f : CsvField) :
    (recomputeIfTime s f).id = s.id := by
  by_cases h1 : f = .start_time ∨ f = .end_time <;>
    by_cases h2 : jsTruthy s.start_time && jsTruthy s.end_time <;>
      simp [recomputeIfTime, h1, h2]

lemma recomputeIfTime_start_time (s : Session) (f : CsvField) :
    (recomputeIfTime s f).start_time = s.start_time := by
  by_cases h1 : f = .start_time ∨ f = .end_time <;>
    by_cases h2 : jsTruthy s.start_time && jsTruthy s.end_time <;>
      simp [recomputeIfTime, h1, h2]

lemma recomputeIfTime_end_time (s : Session) (f : CsvField) :
    (recomputeIfTime s f).end_time = s.end_time := by
  by_cases h1 : f = .start_time ∨ f = .end_time <;>
    by_cases h2 : jsTruthy s.start_time && jsTruthy s.end_time <;>
      simp [recomputeIfTime, h1, h2]

lemma updateFirst_find (p : α → Bool) (f : α → α)
    (hp : ∀ a, p a = true → p (f a) = true) :
    ∀ l l', updateFirst p f l = some l' →
      ∃ a, l.find? p = some a ∧ l'.find? p = some (f a) := by
  intro l
  induction l with
  | nil => intro l' h; simp [updateFirst] at h
  | cons x xs ih =>
    intro l' h
    by_cases hx : p x
    · simp only [updateFirst, hx, if_true, Option.some_inj] at h
      refine ⟨x, ?_, ?_⟩
      · rw [List.find?_cons_of_pos _ hx]
      · rw [← h, List.find?_cons_of_pos _ (hp x hx)]
    · simp only [updateFirst, hx, Bool.false_eq_true, if_false, Option.map_eq_some'] at h
      obtain ⟨xs', hxs', rfl⟩ := h
      obtain ⟨a, ha1, ha2⟩ := ih xs' hxs'
      refine ⟨a, ?_, ?_⟩
      · rw [List.find?_cons_of_neg _ (by simpa using hx)]; exact ha1
      · rw [List.find?_cons_of_neg _ (by simpa using hx)]; exact ha2

/-- C1: after a successful update of either time field, the first session
matching the target id has `duration_minutes` set to
`Math.round((end - start) / 60000)` minutes (as the stringified number),
where the end time is shifted to the next day when it precedes the start
time.  `ss`/`es` are the parsed start/end times in seconds of day. -/
theorem update_time_field_recomputes_duration
    (file : Option (List RawRow)) (targetId : Int) (f : CsvField) (v : String)
    (out : List Session) (s : Session) (ss es : Int)
    (hf : f = .start_time ∨ f = .end_time)
    (hok : updateSessionInCSV file targetId f v = .ok out)
    (hfind : out.find? (fun t => (t.id : Int) == targetId) = some s)
    (hts : jsTruthy s.start_time = true)
    (hte : jsTruthy s.end_time = true)
    (hss : parseTimeToSecs (s.start_time.getD "") = some ss)
    (hes : parseTimeToSecs (s.end_time.getD "") = some es) :
    s.duration_minutes = .str (toString (durMinutes ss es)) := by
  have hp : ∀ a : Session, ((a.id : Int) == targetId) = true →
      (((recomputeIfTime (setField a f v) f).id : Int) == targetId) = true := by
    intro a ha
    rw [recomputeIfTime_id, setField_id]
    exact ha
  simp only [updateSessionInCSV] at hok
  rcases hu : updateFirst (fun s => (s.id : Int) == targetId)
      (fun s => recomputeIfTime (setField s f v) f)
      (loadSessionsFromCSV file) with _ | l
  · rw [hu] at hok; cases hok
  · rw [hu] at hok
    injection hok with hl
    subst hl
    obtain ⟨a, _, hfind2⟩ := updateFirst_find _ _ hp _ _ hu
    rw [hfind] at hfind2
    injection hfind2 with hs
    set s1 := setField a f v with hs1
    have hstart : s.start_time = s1.start_time := by
      rw [hs, recomputeIfTime_start_time]
    have hend : s.end_time = s1.end_time := by
      rw [hs, recomputeIfTime_end_time]
    have hg1 : jsTruthy s1.start_time = true := by rw [← hstart]; exact hts
    have hg2 : jsTruthy s1.end_time = true := by rw [← hend]; exact hte
    have hsdur : s.duration_minutes =
        computeDur (s1.start_time.getD "") (s1.end_time.getD "") := by
      rw [hs]
      simp [recomputeIfTime, hf, hg1, hg2]
    rw [hsdur, ← hstart, ← hend]
    simp [computeDur, hss, hes]

/-- Witness for C1, the specified overnight scenario: editing `end_time`
to `"01:00:00"` on a session whose `start_time` is `"23:00:00"` stores
`duration_minutes = "120"`. -/
theorem update_time_field_recomputes_duration_witness :
    updateSessionInCSV
        (some [⟨some "2024-01-01", some "23:00:00", some "22:00:00",
               some "60", some "Writing", some ""⟩]) 0 .end_time "01:00:00" =
      .ok [⟨0, some "2024-01-01", some "23:00:00", some "01:00:00",
            .str "120", some "Writing", some ""⟩] ∧
    ([⟨0, some "2024-01-01", some "23:00:00", some "01:00:00",
       .str "120", some "Writing", some ""⟩] :
        List Session).find? (fun t => (t.id : Int) == 0) =
      some ⟨0, some "2024-01-01", some "23:00:00", some "01:00:00",
            .str "120", some "Writing", some ""⟩ ∧
    (⟨0, some "2024-01-01", some "23:00:00", some "01:00:00",
      .str "120", some "Writing", some ""⟩ : Session).duration_minutes =
      .str "120" := by
  refine ⟨by rfl, by decide, ?_⟩
  have h := update_time_field_recomputes_duration
    (some [⟨some "2024-01-01", some "23:00:00", some "22:00:00",
           some "60", some "Writing", some ""⟩]) 0 .end_time "01:00:00"
    [⟨0, some "2024-01-01", some "23:00:00", some "01:00:00",
      .str "120", some "Writing", some ""⟩]
    ⟨0, some "2024-01-01", some "23:00:00", some "01:00:00",
     .str "120", some "Writing", some ""⟩
    82800 3600 (Or.inr rfl) (by rfl) (by decide) (by decide) (by decide)
    (by decide) (by decide)
  exact h.trans (by decide)

/-! ## Project store (`src/src/main/data-manager.js`)

`projects.json` is read as text and handed to `JSON.parse`; the
repository's code starts from the parse outcome, so `loadAndMigrateProjects`
takes `Except Unit JVal` (the `.error` case models the `SyntaxError`
thrown by `JSON.parse`, which the function's outer catch intercepts).
`JVal` is the JSON value universe; `JSON.parse` never yields `undefined`,
so absence of a property is `Option.none` at the access sites. -/

inductive JVal where
  | jnull
  | jbool (b : Bool)
  | jnum (n : Int)
  | jstr (s : String)
  | jarr (elems : List JVal)
  | jobj (fields : List (String × JVal))

/-- `typeof v === 'object'` — true for objects, arrays and `null`. -/
def typeofObject : JVal → Bool
  | .jnull => true
  | .jarr _ => true
  | .jobj _ => true
  | _ => false

def isNullJ : JVal → Bool
  | .jnull => true
  | _ => false

/-- `v.hasOwnProperty(k)` for the keys used here: an object owns its
literal keys; the arrays occurring in this data never own an `"id"` or
`"name"` property (their own properties are the numeric indices and
`length`), so the lookup is false for them. -/
def hasOwn (k : String) : JVal → Bool
  | .jobj fs => fs.any (fun f => f.1 == k)
  | _ => false

/-- Property access `v[k]`: `none` models `undefined`. -/
def getProp (k : String) : JVal → Option JVal
  | .jobj fs => (fs.find? (fun f => f.1 == k)).map (fun f => f.2)
  | _ => none

/-- JS loose equality `x == null`: true for both `undefined` and `null`. -/
def jsEqNull (v : Option JVal) : Bool :=
  match v with
  | none => true
  | some .jnull => true
  | some _ => false

/-- `typeof v === 'string'` on a possibly-undefined property value. -/
def isStringJ (v : Option JVal) : Bool :=
  match v with
  | some (.jstr _) => true
  | _ => false

/-- Object-literal / assignment update of key `k`: an existing key keeps
its position and is overwritten, a new key is appended (JS property-order
semantics for string keys). -/
def setProp (fs : List (String × JVal)) (k : String) (v : JVal) :
    List (String × JVal) :=
  if fs.any (fun f => f.1 == k) then
    fs.map (fun f => if f.1 == k then (k, v) else f)
  else fs ++ [(k, v)]

/-- The fields produced by spreading `{...v}` for the `'object'`-typed
values that reach the spread: an object's own fields, an array's
index-keyed elements. -/
def spreadFields : JVal → List (String × JVal)
  | .jobj fs => fs
  | .jarr xs => xs.enum.map (fun p => (toString p.1, p.2))
  | _ => []

/-- `project.name = 'Unnamed'` — mutation of the `name` property (only
plain objects reach this statement; see `migrateEntry`). -/
def setPropJ (v : JVal) (k : String) (x : JVal) : JVal :=
  match v with
  | .jobj fs => .jobj (setProp fs k x)
  | other => other

/-- One step of the migration `projects.map(project => ...)` in
`loadAndMigrateProjects`, with `gen` the freshly generated id string
(`Date.now().toString() + random suffix`).  Returns the mapped entry
(`none` = marked for removal by the subsequent `filter`) and whether this
entry set `needsRewrite`. -/
def migrateEntry (gen : String) (v : JVal) : Option JVal × Bool :=
  if typeofObject v && !isNullJ v &&
      (!hasOwn "id" v || jsEqNull (getProp "id" v)) then
    (some (.jobj (setProp (spreadFields v) "id" (.jstr gen))), true)
  else if !typeofObject v || isNullJ v then
    (none, true)
  else if !isStringJ (getProp "name" v) then
    (some (setPropJ v "name" (.jstr "Unnamed")), true)
  else
    (some v, false)

/-- The whole migration pass: map each entry (ids generated per position,
abstracting the distinct `Date.now()`+random values), drop removed
entries, and accumulate the `needsRewrite` flag. -/
def migrateList (gen : Nat → String) : Nat → List JVal → List JVal × Bool
  | _, [] => ([], false)
  | i, v :: vs =>
    let r := migrateEntry (gen i) v
    let rest := migrateList gen (i + 1) vs
    (match r.1 with
     | some x => x :: rest.1
     | none => rest.1,
     r.2 || rest.2)

/-- The state of `projects.json` as `loadAndMigrateProjects` observes it:
absent (ENOENT), unreadable for another reason, or content with its
`JSON.parse` outcome. -/
inductive ProjectsFile where
  | missing
  | unreadable
  | content (parsed : Except Unit JVal)

/-- `loadAndMigrateProjects` from `data-manager.js`.  The second
component records whether the file was rewritten (`needsRewrite` was set
and the `writeFile` call reached; disk success assumed).
* ENOENT → return `[]`, no write;
* any other read error is rethrown, lands in the function's outer catch,
  and the function returns `[]` — no write;
* a `JSON.parse` failure likewise propagates to the outer catch:
  `[]`, **no write**;
* parsed non-array content resets to `[]` with `needsRewrite = true`;
* an array is migrated entry by entry, rewriting iff anything changed. -/
def loadAndMigrateProjects (file : ProjectsFile) (gen : Nat → String) :
    List JVal × Bool :=
  match file with
  | .missing => ([], false)
  | .unreadable => ([], false)
  | .content (.error _) => ([], false)
  | .content (.ok v) =>
    let init : List JVal × Bool :=
      match v with
      | .jarr xs => (xs, false)
      | _ => ([], true)
    let r := migrateList gen 0 init.1
    (r.1, init.2 || r.2)

/-- Counterexample to C5 as stated: a projects file whose content fails
to parse as JSON (`JSON.parse` throws) is recovered as the empty list,
but the file is **not** rewritten — the exception skips the
`needsRewrite` write and lands in the outer catch, contradicting the
claim that load recovers "and rewrites the file" in this case. -/
theorem load_projects_parse_failure_no_rewrite :
    (loadAndMigrateProjects (.content (.error ())) (fun _ => "id0")).1 = [] ∧
    ¬ ((loadAndMigrateProjects (.content (.error ())) (fun _ => "id0")).2 = true) := by
  exact ⟨rfl, by simp [loadAndMigrateProjects]⟩

/-- C5 (amended): a parse failure is recovered by returning the empty
project list without propagating the error, but without rewriting the
file; only content that parses to a non-array JSON value is treated as an
empty list *and* rewritten. -/
theorem load_projects_recovery (gen : Nat → String) :
    loadAndMigrateProjects (.content (.error ())) gen = ([], false) ∧
    (∀ v : JVal, (∀ xs, v ≠ .jarr xs) →
      loadAndMigrateProjects (.content (.ok v)) gen = ([], true)) := by
  refine ⟨rfl, fun v hv => ?_⟩
  cases v with
  | jarr xs => exact absurd rfl (hv xs)
  | jnull => rfl
  | jbool b => rfl
  | jnum n => rfl
  | jstr s => rfl
  | jobj fs => rfl

/-- Witness for C5 (amended) at the parse-failure input and at the
non-array JSON number `3`. -/
theorem load_projects_recovery_witness :
    loadAndMigrateProjects (.content (.error ())) (fun _ => "id0") = ([], false) ∧
    loadAndMigrateProjects (.content (.ok (.jnum 3))) (fun _ => "id0") = ([], true) :=
  ⟨(load_projects_recovery (fun _ => "id0")).1,
   (load_projects_recovery (fun _ => "id0")).2 (.jnum 3)
     (fun _ h => JVal.noConfusion h)⟩

lemma migrateEntry_valid_unchanged (gen : String) (fs : List (String × JVal))
    (hid : hasOwn "id" (.jobj fs) = true)
    (hnn : jsEqNull (getProp "id" (.jobj fs)) = false)
    (hname : isStringJ (getProp "name" (.jobj fs)) = true) :
    migrateEntry gen (.jobj fs) = (some (.jobj fs), false) := by
  simp [migrateEntry, hid, hnn, hname, typeofObject, isNullJ]

lemma migrateList_mem (gen : Nat → String) (v : JVal)
    (hv : ∀ g, migrateEntry g v = (some v, false)) :
    ∀ (xs : List JVal) (i : Nat), v ∈ xs → v ∈ (migrateList gen i xs).1 := by
  intro xs
  induction xs with
  | nil => intro i h; cases h
  | cons x rest ih =>
    intro i h
    rcases List.mem_cons.mp h with rfl | hmem
    · simp only [migrateList, hv (gen i)]
      exact List.mem_cons_self _ _
    · have htail := ih (i + 1) hmem
      simp only [migrateList]
      rcases (migrateEntry (gen i) x).1 with _ | y
      · exact htail
      · exact List.mem_cons_of_mem y htail

/-- C10 (frame property of project migration): an entry that is a plain
object already carrying a non-null `id` and a string `name` passes
through the migration completely unchanged and does not trigger a
rewrite, and such an entry appearing in the parsed array is present
as-is in the list `load()` returns.  The other migration actions are
exactly: dropping non-object (or null) entries, adding a generated `id`
to object entries lacking a non-null one (all other fields kept by the
spread), and defaulting a missing or non-string `name` to `"Unnamed"`
(all other fields untouched). -/
theorem migration_preserves_valid_entries :
    (∀ (gen : String) (fs : List (String × JVal)),
      hasOwn "id" (.jobj fs) = true →
      jsEqNull (getProp "id" (.jobj fs)) = false →
      isStringJ (getProp "name" (.jobj fs)) = true →
      migrateEntry gen (.jobj fs) = (some (.jobj fs), false)) ∧
    (∀ (gen : String) (v : JVal),
      typeofObject v = false ∨ isNullJ v = true →
      migrateEntry gen v = (none, true)) ∧
    (∀ (gen : String) (fs : List (String × JVal)),
      (hasOwn "id" (.jobj fs) = false ∨ jsEqNull (getProp "id" (.jobj fs)) = true) →
      migrateEntry gen (.jobj fs) =
        (some (.jobj (setProp fs "id" (.jstr gen))), true)) ∧
    (∀ (gen : String) (fs : List (String × JVal)),
      hasOwn "id" (.jobj fs) = true →
      jsEqNull (getProp "id" (.jobj fs)) = false →
      isStringJ (getProp "name" (.jobj fs)) = false →
      migrateEntry gen (.jobj fs) =
        (some (.jobj (setProp fs "name" (.jstr "Unnamed"))), true)) ∧
    (∀ (gen : Nat → String) (xs : List JVal) (fs : List (String × JVal)),
      hasOwn "id" (.jobj fs) = true →
      jsEqNull (getProp "id" (.jobj fs)) = false →
      isStringJ (getProp "name" (.jobj fs)) = true →
      JVal.jobj fs ∈ xs →
      JVal.jobj fs ∈ (loadAndMigrateProjects (.content (.ok (.jarr xs))) gen).1) := by
  refine ⟨migrateEntry_valid_unchanged, ?_, ?_, ?_, ?_⟩
  · intro gen v h
    rcases h with h | h
    · simp [migrateEntry, h]
    · cases v <;> simp_all [migrateEntry, isNullJ, typeofObject]
  · intro gen fs h
    rcases h with h | h
    · simp [migrateEntry, typeofObject, isNullJ, h, spreadFields]
    · simp [migrateEntry, typeofObject, isNullJ, h, spreadFields]
  · intro gen fs hid hnn hname
    simp [migrateEntry, typeofObject, isNullJ, hid, hnn, hname, setPropJ]
  · intro gen xs fs hid hnn hname hmem
    have hv : ∀ g, migrateEntry g (.jobj fs) = (some (.jobj fs), false) :=
      fun g => migrateEntry_valid_unchanged g fs hid hnn hname
    have := migrateList_mem gen (.jobj fs) hv xs 0 hmem
    simpa [loadAndMigrateProjects] using this

/-- Witness for C10 at concrete entries: a valid entry is returned
unchanged (both directly and through `load()` on an array also containing
a dropped numeric entry), a string entry is dropped, an id-less entry
gains only the generated id, and a nameless entry gains only
`name = "Unnamed"`. -/
theorem migration_preserves_valid_entries_witness :
    migrateEntry "g1"
        (.jobj [("id", .jstr "a1"), ("name", .jstr "Legacy"),
                ("color", .jstr "#123456")]) =
      (some (.jobj [("id", .jstr "a1"), ("name", .jstr "Legacy"),
                    ("color", .jstr "#123456")]), false) ∧
    migrateEntry "g1" (.jstr "junk") = (none, true) ∧
    migrateEntry "g1" (.jobj [("name", .jstr "Legacy")]) =
      (some (.jobj [("name", .jstr "Legacy"), ("id", .jstr "g1")]), true) ∧
    migrateEntry "g1" (.jobj [("id", .jstr "a1")]) =
      (some (.jobj [("id", .jstr "a1"), ("name", .jstr "Unnamed")]), true) ∧
    JVal.jobj [("id", .jstr "a1"), ("name", .jstr "Legacy"),
               ("color", .jstr "#123456")] ∈
      (loadAndMigrateProjects
        (.content (.ok (.jarr [.jnum 7,
          .jobj [("id", .jstr "a1"), ("name", .jstr "Legacy"),
                 ("color", .jstr "#123456")]])))
        (fun _ => "g1")).1 := by
  refine ⟨?_, ?_, ?_, ?_, ?_⟩
  · exact migration_preserves_valid_entries.1 "g1" _ rfl rfl rfl
  · exact migration_preserves_valid_entries.2.1 "g1" (.jstr "junk") (Or.inl rfl)
  · have h := migration_preserves_valid_entries.2.2.1 "g1"
      [("name", .jstr "Legacy")] (Or.inl rfl)
    simpa [setProp] using h
  · have h := migration_preserves_valid_entries.2.2.2.1 "g1"
      [("id", .jstr "a1")] rfl rfl rfl
    simpa [setProp] using h
  · exact migration_preserves_valid_entries.2.2.2.2 (fun _ => "g1") _ _ rfl rfl rfl
      (List.mem_cons_of_mem _ (List.mem_cons_self _ _))

/-- A project as returned by `loadAndMigrateProjects` after migration:
`id` and `name` are strings (migration guarantees both), `color` is
optional. -/
structure Project where
  id : String
  name : String
  color : Option String
deriving Repr, DecidableEq

/-- The two pre-write failures of `addProject`:
`'Invalid project data provided'` (validation) and
`'Project named "..." already exists'` (duplicate). -/
inductive ProjectAddError where
  | validation
  | duplicate
deriving Repr, DecidableEq

/-- `name.trim()` — strip leading and trailing whitespace. -/
def jsTrim (s : String) : String :=
  ⟨((s.data.dropWhile Char.isWhitespace).reverse.dropWhile
      Char.isWhitespace).reverse⟩

/-- `s.toLowerCase()` on the character data. -/
def jsLower (s : String) : String :=
  ⟨s.data.map Char.toLower⟩

/-- `projectData.color || '#4E79A7'`: the default blue when the color is
absent or falsy (empty string). -/
def jsColorOrDefault (color : Option String) : String :=
  match color with
  | some c => if c = "" then "#4E79A7" else c
  | none => "#4E79A7"

/-- `addProject(projectData)` from `data-manager.js`, for a string
`name` (the guard's missing/non-string branches concern untyped input and
throw the same validation error before anything else happens).
Checks, in source order and all before the write:
`!projectData.name || projectData.name.trim().length === 0` →
validation error; a case-insensitive `name` match against the loaded
projects → duplicate error; otherwise the new project (generated id,
trimmed name, defaulted color) is appended and the whole array is
persisted — `.ok` carries the written array and the new project,
`.error` a throw before any write. -/
def addProject (projects : List Project) (name : String)
    (color : Option String) (genId : String) :
    Except ProjectAddError (List Project × Project) :=
  if name = "" ∨ jsTrim name = "" then .error .validation
  else
    let trimmedName := jsTrim name
    if projects.any (fun p => jsLower p.name == jsLower trimmedName) then
      .error .duplicate
    else
      let newProject : Project :=
        { id := genId, name := trimmedName,
          color := some (jsColorOrDefault color) }
      .ok (projects ++ [newProject], newProject)

/-- C6: an empty or whitespace-only name fails with the validation
error, a name matching an existing project case-insensitively fails with
the duplicate error — both before any write (the error return precedes
the persist) — and otherwise the project is created with the generated
id and defaulted color and the whole extended array is persisted. -/
theorem addProject_validates_and_rejects_duplicates
    (projects : List Project) (name : String) (color : Option String)
    (genId : String) :
    (jsTrim name = "" →
      addProject projects name color genId = .error .validation) ∧
    (jsTrim name ≠ "" →
      (∃ p ∈ projects, jsLower p.name = jsLower (jsTrim name)) →
      addProject projects name color genId = .error .duplicate) ∧
    (jsTrim name ≠ "" →
      (∀ p ∈ projects, jsLower p.name ≠ jsLower (jsTrim name)) →
      addProject projects name color genId =
        .ok (projects ++
          [{ id := genId, name := jsTrim name,
             color := some (jsColorOrDefault color) }],
          { id := genId, name := jsTrim name,
            color := some (jsColorOrDefault color) })) := by
  refine ⟨fun h => ?_, fun h hdup => ?_, fun h hnodup => ?_⟩
  · simp [addProject, h]
  · have hne : ¬ (name = "" ∨ jsTrim name = "") := by
      rintro (rfl | hh)
      · exact h rfl
      · exact h hh
    have hany : projects.any
        (fun p => jsLower p.name == jsLower (jsTrim name)) = true := by
      obtain ⟨p, hp, hpe⟩ := hdup
      exact List.any_eq_true.mpr ⟨p, hp, by simpa using hpe⟩
    simp [addProject, hne, hany]
  · have hne : ¬ (name = "" ∨ jsTrim name = "") := by
      rintro (rfl | hh)
      · exact h rfl
      · exact h hh
    have hany : projects.any
        (fun p => jsLower p.name == jsLower (jsTrim name)) = false := by
      rw [List.any_eq_false]
      intro p hp
      simpa using hnodup p hp
    simp [addProject, hne, hany]

/-- Witness for C6 against the concrete store `[{id:"1", name:"Writing"}]`:
a whitespace-only name is rejected, `" wRiTiNg "` is rejected as a
case-insensitive duplicate, and `"Research"` with a falsy color is added
with the default blue. -/
theorem addProject_validates_and_rejects_duplicates_witness :
    addProject [⟨"1", "Writing", some "#111111"⟩] "   " none "9" =
      .error .validation ∧
    addProject [⟨"1", "Writing", some "#111111"⟩] " wRiTiNg " none "9" =
      .error .duplicate ∧
    addProject [⟨"1", "Writing", some "#111111"⟩] "Research" (some "") "9" =
      .ok ([⟨"1", "Writing", some "#111111"⟩,
            ⟨"9", "Research", some "#4E79A7"⟩],
           ⟨"9", "Research", some "#4E79A7"⟩) := by
  refine ⟨?_, ?_, ?_⟩
  · exact (addProject_validates_and_rejects_duplicates
      [⟨"1", "Writing", some "#111111"⟩] "   " none "9").1 (by decide)
  · exact (addProject_validates_and_rejects_duplicates
      [⟨"1", "Writing", some "#111111"⟩] " wRiTiNg " none "9").2.1
      (by decide) ⟨⟨"1", "Writing", some "#111111"⟩, by simp, by decide⟩
  · have h := (addProject_validates_and_rejects_duplicates
      [⟨"1", "Writing", some "#111111"⟩] "Research" (some "") "9").2.2
      (by decide) (by decide)
    simpa using h

/-! ## Comparison engine (`src/unnamed/part_009`, ipc-handlers)

The `get-comparison-stats` handler works on calendar days: `today` is
normalised to local midnight, session dates are parsed from
`session.date + 'T00:00:00'`, and every window bound is a `YYYY-MM-DD`
string re-parsed at `T00:00:00` / `T23:59:59`.  At this granularity a
session is inside a window iff its calendar day lies in the inclusive
day range, so calendar dates are modelled as integer day numbers
(`Date.setDate` arithmetic is exact day arithmetic at midnight).  A
`StatSession` is a loaded session as the handler reads it: the parsed
date (`none` for an unparseable `session.date`, skipped by the `isNaN`
check) and the numeric `duration_minutes` (already coerced by
`loadSessionsFromCSV`; `parseInt` on that number is the identity). -/

structure StatSession where
  date : Option Int
  duration_minutes : Int
deriving Repr, DecidableEq

/-- `calculateTotalHours(sessions, startDateStr, endDateStr)`: sum of the
duration minutes of the sessions whose (valid) date lies in the inclusive
window, divided by 60 — fractional hours, no rounding. -/
def calculateTotalHours (sessions : List StatSession)
    (startDay endDay : Int) : ℚ :=
  let totalMinutes : Int := sessions.foldl
    (fun acc s =>
      match s.date with
      | some d => if startDay ≤ d ∧ d ≤ endDay then acc + s.duration_minutes else acc
      | none => acc)
    0
  (totalMinutes : ℚ) / 60

/-- One comparison entry `{ value, label, range }`; the display string
`range` (`formatShortDate`) is abstracted to the underlying window
bounds. -/
structure StatEntry where
  value : ℚ
  label : String
  windowStart : Int
  windowEnd : Int
deriving Repr, DecidableEq

structure DayComparison where
  current : StatEntry
  past : List StatEntry
deriving Repr, DecidableEq

/-- The day-comparison loop `for (let i = 3; i >= 1; i--)` of the
`get-comparison-stats` handler: each past entry is the single day
`today.getDate() - i * 7`, with labels `"3 <Day>s Ago"`, `"2 <Day>s Ago"`,
`"Last <Day>"`.  `dayName` is `getDayName(todayDayOfWeek)` (the weekday
name of `today`, supplied by the date utils). -/
def pastDayStats (sessions : List StatSession) (today : Int)
    (dayName : String) : List StatEntry :=
  [3, 2, 1].map (fun i =>
    let pastDate := today - i * 7
    { value := calculateTotalHours sessions pastDate pastDate
      label :=
        if i = 3 then "3 " ++ dayName ++ "s Ago"
        else if i = 2 then "2 " ++ dayName ++ "s Ago"
        else "Last " ++ dayName
      windowStart := pastDate
      windowEnd := pastDate })

/-- The `day` component of the handler's result. -/
def dayComparison (sessions : List StatSession) (today : Int)
    (dayName : String) : DayComparison :=
  { current :=
      { value := calculateTotalHours sessions today today
        label := "Today"
        windowStart := today
        windowEnd := today }
    past := pastDayStats sessions today dayName }

/-- C9: each past day-window is the single calendar day exactly N weeks
(N = 1, 2, 3) before `today` — hence the same weekday (equal day number
mod 7) — carrying the labels `"3 <Day>s Ago"`, `"2 <Day>s Ago"`,
`"Last <Day>"` and the exact (unrounded) total `minutes/60`; and for the
session set holding exactly one 120-minute session dated exactly 7 days
before `today`, the entry labelled `"Last <Day>"` has value 2 hours. -/
theorem day_comparison_windows_and_last_weekday
    (sessions : List StatSession) (today : Int) (dayName : String) :
    ((dayComparison sessions today dayName).past.map
        (fun e => (e.windowStart, e.windowEnd))
      = [(today - 21, today - 21), (today - 14, today - 14),
         (today - 7, today - 7)]) ∧
    ((dayComparison sessions today dayName).past.map (fun e => e.label)
      = ["3 " ++ dayName ++ "s Ago", "2 " ++ dayName ++ "s Ago",
         "Last " ++ dayName]) ∧
    ((dayComparison sessions today dayName).past.map
        (fun e => e.windowStart % 7) = [today % 7, today % 7, today % 7]) ∧
    ((dayComparison sessions today dayName).past.map (fun e => e.value)
      = [calculateTotalHours sessions (today - 21) (today - 21),
         calculateTotalHours sessions (today - 14) (today - 14),
         calculateTotalHours sessions (today - 7) (today - 7)]) ∧
    ((dayComparison [⟨some (today - 7), 120⟩] today dayName).past.map
        (fun e => (e.label, e.value))
      = [("3 " ++ dayName ++ "s Ago", 0), ("2 " ++ dayName ++ "s Ago", 0),
         ("Last " ++ dayName, 2)]) := by
  have h21 : ¬ (today - 21 ≤ today - 7 ∧ today - 7 ≤ today - 21) := by omega
  have h14 : ¬ (today - 14 ≤ today - 7 ∧ today - 7 ≤ today - 14) := by omega
  have h7 : (today - 7 ≤ today - 7 ∧ today - 7 ≤ today - 7) := by omega
  refine ⟨?_, ?_, ?_, ?_, ?_⟩
  · simp [dayComparison, pastDayStats]
  · simp [dayComparison, pastDayStats]
  · simp only [dayComparison, pastDayStats, List.map_cons, List.map_nil,
      List.cons.injEq, and_true]
    omega
  · simp [dayComparison, pastDayStats]
  · simp only [dayComparison, pastDayStats, List.map_cons, List.map_nil,
      calculateTotalHours, List.foldl, h21, h14, h7, if_true, if_false]
    norm_num [h21, h14, h7]
    omega
